import Mathlib

/-!
The program mplayer-transcribe: terminal key decoder, command dispatcher,
hotkey watcher.

A shallow embedding of `mplayer-transcribe.c` (and the part of `xkeys.c` that
`main` calls).  The C program is a single `main` with three roles, selected by
the results of `fork`; every interaction with the outside (bytes on stdin,
results of `select`, `waitpid`, `getopt`, `pipe`, `fork`, Xlib) is an explicit
input of the model, and every effect is recorded in a `World` value.

Conventions:
* `int` values are `Int`; no operation of the modelled code leaves the 32-bit
  range (the largest value formed is `0x1b5bff7e`).
* `x & 0xff` on an `int` (2-complement) is `low8 x = (x % 256).toNat`.
* `EOF` is `-1`, the stream of stdin is a finite list of bytes, and reading
  past its end yields `EOF` again.
* Fields of `World` marked "ghost" do not exist in the C program; they record
  what happened (which keys reached `key_command`, whether `EOF` was seen).
* `Sys` records the calls the properties speak about; closing the unused pipe
  ends and `fdopen` are left out.
* The X child is modelled up to the events it receives before it sees
  `quitRequest`; the asynchronous `sigIntHandler` itself is not modelled.
* Constants of system headers have their Linux / X11 values: `ICANON = 2`,
  `ECHO = 8`, `ShiftMask = 1`, `ControlMask = 4`, `Mod1Mask = 8`,
  `KeyPress = 2`, `KeyRelease = 3`.
-/

namespace MplayerTranscribe

/-! ## Data model -/

/-- One byte of terminal input, as `getchar` returns it (`unsigned char`). -/
abbrev Byte := Fin 256

/-- The `EOF` value of `<stdio.h>`. -/
def EOF : Int := -1

/-- The code of an ASCII character constant, as C gives it to a `char` literal. -/
def chr (c : Char) : Int := (c.toNat : Int)

/-- The C expression `x & 0xff` for an `int` in 2-complement representation. -/
def low8 (x : Int) : Nat := (x % 256).toNat

/-- What is written to stderr. `hex v` stands for
`fprintf(stderr, "\n0x%.2x\n", v)`, `perror s` for `perror(s)`. -/
inductive Diag where
  | text (s : String)
  | hex (v : Int)
  | perror (s : String)
  deriving DecidableEq

/-- Calls into the operating system and Xlib that `main` makes, in order. -/
inductive Sys where
  | pipe
  | fork
  | dup2Stdin
  | execl (file : String) (args : List String)
  | signalSigint
  | grabKey (keyName : String) (modifier : Nat)
  | cleanupX
  | tcgetattr
  | tcsetattr (c_lflag : Nat)
  | fclosePipe
  | waitpidMplayer
  | killX
  | waitpidX
  deriving DecidableEq

/-- The observable state of one process of the program. -/
structure World where
  /-- Bytes of stdin not yet read. -/
  stdin : List Byte
  /-- Ghost: `getchar` has returned `EOF` at least once. -/
  eofSeen : Bool
  /-- Strings written to `mplayer_pipe`, oldest first (each write is flushed). -/
  mplayer_pipe : List String
  /-- Strings written to stdout, oldest first. -/
  stdout : List String
  /-- Output on stderr, oldest first. -/
  stderr : List Diag
  /-- Ghost: the `key` argument of every call of `key_command`, oldest first. -/
  dispatched : List Int
  /-- The `c_lflag` word of the terminal settings currently in force. -/
  c_lflag : Nat
  /-- System calls made so far, oldest first. -/
  sys : List Sys
  deriving DecidableEq

/-- The calls `fprintf(mplayer_pipe, s); fflush(mplayer_pipe);` -/
def World.send (w : World) (s : String) : World :=
  { w with mplayer_pipe := w.mplayer_pipe ++ [s] }

/-- The call `printf(s)` with a constant string. -/
def World.print (w : World) (s : String) : World :=
  { w with stdout := w.stdout ++ [s] }

/-- The calls `fprintf(stderr, ...)` and `perror`. -/
def World.eprint (w : World) (d : Diag) : World :=
  { w with stderr := w.stderr ++ [d] }

/-- Record a system call. -/
def World.call (w : World) (c : Sys) : World :=
  { w with sys := w.sys ++ [c] }

/-- The call `getchar()`: the next byte of stdin as a non-negative `int`, or `EOF`. -/
def getchar (w : World) : Int × World :=
  match w.stdin with
  | [] => (EOF, { w with eofSeen := true })
  | b :: rest => ((b.val : Int), { w with stdin := rest })

/-! ## Command dispatcher (`key_command`) -/

/-- The function `key_command(key, mplayer_pipe)`: the `switch` over the key code. Returns
the function's result (1 to end the loop) and the world after its writes. -/
def key_command (key : Int) (w : World) : Int × World :=
  let w := { w with dispatched := w.dispatched ++ [key] }
  if key = chr 'q' then (1, (w.print "Quitting...\n").send "quit\n")
  else if key = chr ' ' then (0, w.send "pause\n")
  else if key = 0x1b5b41 then (0, w.send "seek 60 0\n")
  else if key = 0x1b5b42 then (0, w.send "seek -60 0\n")
  else if key = 0x1b5b43 then (0, w.send "seek 10 0\n")
  else if key = 0x1b5b44 then (0, w.send "seek -10 0\n")
  else if key = 0x1b5b357e then (0, w.send "seek 600 0\n")
  else if key = 0x1b5b367e then (0, w.send "seek -600 0\n")
  else (0, w)

/-! ## Escape-sequence decoder (body of the terminal loop in `main`) -/

/-- The test `(0x40 <= c) && (c <= 0x7e)`. -/
def isFinal (c : Int) : Bool := decide (0x40 ≤ c) && decide (c ≤ 0x7e)

/-- The key code of a 3-byte sequence: `0x1b5b00 | (ch2 & 0xff)`. -/
def code3 (ch2 : Int) : Int := ((0x1b5b00 ||| low8 ch2 : Nat) : Int)

/-- The key code of a 4-byte sequence:
`0x1b5b0000 | ((ch2 & 0xff) << 8) | (ch3 & 0xff)`. -/
def code4 (ch2 ch3 : Int) : Int :=
  ((0x1b5b0000 ||| (low8 ch2 <<< 8) ||| low8 ch3 : Nat) : Int)

/-- The loop `while (EOF != (ch3 = getchar())) { if (final) break; }`, run on
the unread bytes `bs` of stdin. -/
def skipRest (w : World) : List Byte → World
  | [] => { w with stdin := [], eofSeen := true }
  | b :: rest =>
    if isFinal (b.val : Int) then { w with stdin := rest } else skipRest w rest

/-- The skipping loop started in world `w`. -/
def drain (w : World) : World := skipRest w w.stdin

/-- What `select` and `waitpid(mplayer_pid, NULL, WNOHANG)` return in one
iteration of the terminal loop. -/
structure Poll where
  selected : Int
  r : Int
  deriving DecidableEq

/-- How one run of the loop body ends. -/
inductive Step where
  /-- The end of the body (or `continue`) is reached with this value of `quit`. -/
  | next (quit : Int) (w : World)
  /-- The body executes `break`. -/
  | brk (w : World)
  /-- The body calls `exit(code)`. -/
  | exit (code : Int) (w : World)
  deriving DecidableEq

/-- The warning printed for an escape sequence whose second byte is not `[`. -/
def strangeWarning : Diag := .text "\nWARNING: strange escape sequence from terminal!\n"

/-- The part of the loop body from `getchar()` on ("finally read data"). -/
def readKey (w : World) : Step :=
  let (ch, w) := getchar w
  if ch = EOF then .brk w
  else if ch = 0x1b then
    let (ch2, w) := getchar w
    let w := w.eprint (.hex ch2)
    if ch2 ≠ 0x5b then
      .brk (w.eprint strangeWarning)
    else
      let (ch2, w) := getchar w
      let w := w.eprint (.hex ch2)
      if isFinal ch2 then
        let (quit, w) := key_command (code3 ch2) w
        .next quit w
      else
        let (ch3, w) := getchar w
        if isFinal ch3 then
          let (quit, w) := key_command (code4 ch2 ch3) w
          .next quit w
        else
          .next 0 (drain w)
  else
    let (quit, w) := key_command ch w
    .next quit w

/-- One iteration of `while (!quit) { ... }` in the main process. -/
def loopBody (p : Poll) (w : World) : Step :=
  if p.selected < 0 then .exit 1 (w.eprint (.perror "select"))
  else if p.r = -1 then .exit 1 (w.eprint (.perror "waitpid"))
  else if p.r > 0 then .brk (w.print "\nmplayer quit.\n")
  else if p.selected = 0 then .next 0 w
  else readKey w

/-- How the terminal loop ends. -/
inductive LoopEnd where
  /-- Control leaves the loop (by `quit` or `break`) and goes on in `main`. -/
  | left (w : World)
  /-- The process was ended by `exit(code)` inside the loop. -/
  | exited (code : Int) (w : World)
  deriving DecidableEq

/-- The terminal loop, one `Poll` per iteration. `none`: the polls ran out
while the loop was still running. -/
def terminalLoop : List Poll → World → Option LoopEnd
  | [], _ => none
  | p :: ps, w =>
    match loopBody p w with
    | .next quit w' => if quit ≠ 0 then some (.left w') else terminalLoop ps w'
    | .brk w' => some (.left w')
    | .exit code w' => some (.exited code w')

/-- Input is reported ready and the player is still running. -/
def ready : Poll := { selected := 1, r := 0 }

/-! ## Global hotkey watcher (the X child of `main`) -/

/-- The event type `KeyPress` of `<X11/X.h>`. -/
def KeyPress : Int := 2

/-- The macro `#define SEEK_SECONDS "-4"` -/
def SEEK_SECONDS : String := "-4"

/-- The macro `#define MPLAYER_PAUSE "pause\n"` -/
def MPLAYER_PAUSE : String := "pause\n"

/-- The macro `#define MPLAYER_RESUME "seek " SEEK_SECONDS " 0\n"` -/
def MPLAYER_RESUME : String := "seek " ++ SEEK_SECONDS ++ " 0\n"

/-- The body of `while (!quitRequest)` for one event returned by `XNextEvent`;
`s.1` is the local variable `state`. -/
def hotkeyStep (eventType : Int) (s : Int × World) : Int × World :=
  if eventType = KeyPress then
    if s.1 = 0 then (1, s.2.send MPLAYER_PAUSE)
    else (0, s.2.send MPLAYER_RESUME)
  else s

/-- The watcher loop over the events delivered before `quitRequest` is seen. -/
def hotkeyLoop : List Int → Int × World → Int × World
  | [], s => s
  | e :: es, s => hotkeyLoop es (hotkeyStep e s)

/-! ## `main` -/

/-- The constant `ShiftMask` of `<X11/X.h>`. -/
def ShiftMask : Nat := 1

/-- The constant `ControlMask` of `<X11/X.h>`. -/
def ControlMask : Nat := 4

/-- The constant `Mod1Mask` of `<X11/X.h>`. -/
def Mod1Mask : Nat := 8

/-- The constant `ICANON` of `<termios.h>` (Linux). -/
def ICANON : Nat := 0x2

/-- The constant `ECHO` of `<termios.h>` (Linux). -/
def ECHO : Nat := 0x8

/-- The macro `#define VERSION "0.0.1 (2013-07-08)"` -/
def VERSION : String := "0.0.1 (2013-07-08)"

/-- The macro `#define MPLAYER "/usr/bin/mplayer"` -/
def MPLAYER : String := "/usr/bin/mplayer"

/-- The complement `~m` for a 32-bit `tcflag_t`. -/
def not32 (m : Nat) : Nat := 0xFFFFFFFF ^^^ m

/-- The value of `strlen(s)`: the number of bytes of the string. -/
def strlen (s : String) : Nat := s.utf8ByteSize

/-- The test `s[0] == c` for an ASCII character `c` (the first byte of a string is an
ASCII character exactly when its first character is). -/
def firstIs (s : String) (c : Char) : Bool := s.data.head? == some c

/-- The function `mod2str` of `xkeys.c`. -/
def mod2str (modifier : Nat) : String :=
  let m := modifier &&& (ControlMask ||| Mod1Mask ||| ShiftMask)
  if m = 0 then ""
  else if m = ControlMask then "Ctrl+"
  else if m = Mod1Mask then "Alt+"
  else if m = ShiftMask then "Shift+"
  else if m = ControlMask ||| Mod1Mask then "Ctrl+Alt+"
  else if m = ControlMask ||| ShiftMask then "Ctrl+Shift+"
  else if m = Mod1Mask ||| ShiftMask then "Alt+Shift+"
  else if m = ControlMask ||| Mod1Mask ||| ShiftMask then "Ctrl+Alt+Shift+"
  else "???"

/-- Everything `main` receives from outside, apart from the initial world. -/
structure Env where
  /-- The string `argv[0]`. -/
  argv0 : String
  /-- The successive results of `getopt(argc, argv, "k:casv?")` before it
  returns -1: the option character and the value of `optarg`. -/
  options : List (Char × String)
  /-- The arguments `argv[optind]`, ..., `argv[argc-1]` once `getopt` is done. -/
  operands : List String
  /-- Whether `pipe(pipefd) != 0`. -/
  pipeFails : Bool
  /-- The result of `fork()` in `pipe_fork`. -/
  mplayer_pid : Int
  /-- Whether `execl` returns (it failed). -/
  execFails : Bool
  /-- The result of the second `fork()`. -/
  x_pid : Int
  /-- Whether `XStringToKeysym(keyName) != NoSymbol`. -/
  keysymKnown : Bool
  /-- Whether `XOpenDisplay(NULL) != NULL`. -/
  displayOpens : Bool
  /-- Whether `XkbSetDetectableAutoRepeat` reports support. -/
  autoRepeat : Bool
  /-- The types of the X events received before `quitRequest` is seen. -/
  events : List Int
  /-- The results of `select` and `waitpid`, one per iteration of the terminal loop. -/
  polls : List Poll

/-- How a process of the program ends. -/
inductive Outcome where
  /-- Either `main` returned `code`, or `exit(code)` was called. -/
  | exited (code : Int)
  /-- Success of `execl`: the process is now the player. -/
  | execed
  /-- The polls ran out while the terminal loop was still running. -/
  | running
  deriving DecidableEq

/-- The end of a process and the world it leaves. -/
structure Run where
  outcome : Outcome
  world : World
  deriving DecidableEq

/-- Result of the option loop. -/
inductive Parsed where
  /-- All options read: the values of `keyName` and `keyModifier`. -/
  | ok (keyName : String) (keyModifier : Nat)
  /-- Early return: `main` returned from inside the loop. -/
  | ret (code : Int) (w : World)
  deriving DecidableEq

/-- The usage text printed for an unrecognized option. -/
def usage (argv0 : String) (w : World) : World :=
  (((w.eprint (.text (argv0 ++ " " ++ VERSION ++ "\n"))).eprint
    (.text ("\nSyntax:\n" ++ argv0 ++ " [-c] [-a] [-s] [-k <keysym>] <media file>\n"))).eprint
    (.text "\nUse xev to find the keysym for a key.\n")).eprint
    (.text ("\nExample:\n\x60" ++ argv0 ++
      " -c -s -k F12 audio.wav\x60 grabs Ctrl+Shift+F12\n\n"))

/-- The loop `while ((c = getopt(...)) != -1) switch (c) ...`. -/
def parseOptions (argv0 : String) :
    List (Char × String) → String → Nat → World → Parsed
  | [], keyName, keyModifier, _ => .ok keyName keyModifier
  | (c, optarg) :: rest, keyName, keyModifier, w =>
    if c = 'k' then parseOptions argv0 rest optarg keyModifier w
    else if c = 'c' then parseOptions argv0 rest keyName (keyModifier ||| ControlMask) w
    else if c = 'a' then parseOptions argv0 rest keyName (keyModifier ||| Mod1Mask) w
    else if c = 's' then parseOptions argv0 rest keyName (keyModifier ||| ShiftMask) w
    else if c = 'v' then .ret 0 (w.print (argv0 ++ "\nVersion: " ++ VERSION ++ "\n"))
    else .ret 1 (usage argv0 w)

/-- The call `tcsetattr(STDIN_FILENO, TCSANOW, &tio)` with `tio.c_lflag = v`. -/
def World.tcsetattr (w : World) (v : Nat) : World :=
  { (w.call (.tcsetattr v)) with c_lflag := v }

/-- The function `initX` of `xkeys.c`: the world after the grab, or the exit code. -/
def initX (env : Env) (keyName : String) (keyModifier : Nat) (w : World) :
    Except (Int × World) World :=
  if !env.keysymKnown then
    .error (2, w.eprint (.text ("ERROR: Unknown key: " ++ keyName ++ "\n")))
  else if !env.displayOpens then
    .error (3, w.eprint (.text "ERROR: Could not open display.\n"))
  else if !env.autoRepeat then
    .error (4, w.eprint (.text "ERROR: Detectable auto repeat is not supported.\n"))
  else .ok (w.call (.grabKey keyName keyModifier))

/-- The X child: `if (x_pid == 0) { ... return 0; }`. -/
def hotkeyChild (env : Env) (keyName : String) (keyModifier : Nat) (w : World) : Run :=
  let w := w.call .signalSigint
  match initX env keyName keyModifier w with
  | .error (code, w) => ⟨.exited code, w⟩
  | .ok w =>
    let (_, w) := hotkeyLoop env.events (0, w)
    let w := w.print "\nQuitting...\n"
    let w := w.call .cleanupX
    let w := w.call .fclosePipe
    ⟨.exited 0, w⟩

/-- The main process from `tcgetattr` to the end of `main`. -/
def mainProcess (env : Env) (w : World) : Run :=
  let w := w.call .tcgetattr
  let old_tio := w.c_lflag
  let new_tio := old_tio &&& (not32 ICANON &&& not32 ECHO)
  let w := w.tcsetattr new_tio
  let w := w.print "Ready.\n"
  match terminalLoop env.polls w with
  | none => ⟨.running, w⟩
  | some (.exited code w) => ⟨.exited code, w⟩
  | some (.left w) =>
    let w := w.tcsetattr old_tio
    let w := w.call .fclosePipe
    let w := w.call .waitpidMplayer
    let w := w.call .killX
    let w := w.call .waitpidX
    let w := w.print "Good bye!\n"
    ⟨.exited 0, w⟩

/-- The function `main`, for whichever process the results of `fork` select. -/
def main (env : Env) (w : World) : Run :=
  match parseOptions env.argv0 env.options "F4" 0 w with
  | .ret code w => ⟨.exited code, w⟩
  | .ok keyName keyModifier =>
    match env.operands with
    | [] => ⟨.exited 1, w.eprint (.text "Missing argument: media file.\n")⟩
    | mediafile :: _ =>
      if keyModifier = ControlMask ∧ strlen keyName = 1 ∧
          (firstIs keyName 'c' ∨ firstIs keyName 'C') then
        ⟨.exited 10, w.eprint (.text "Grabbing Ctrl+C is a bad idea. I won\x27t do that.\n")⟩
      else
        -- the line of 74 `=` characters
        let bar := String.mk (List.replicate 74 '=') ++ "\n"
        let w := w.print bar
        let w := w.print ("Global pause/resume key: " ++ mod2str keyModifier ++ keyName ++ "\n")
        let w := w.print bar
        let w := w.call .pipe
        if env.pipeFails then ⟨.exited 1, w.eprint (.perror "pipe")⟩
        else
          let w := w.call .fork
          if env.mplayer_pid = -1 then ⟨.exited 1, w.eprint (.perror "fork")⟩
          else if env.mplayer_pid = 0 then
            let w := w.call .dup2Stdin
            let w := w.call (.execl MPLAYER [MPLAYER, "-slave", mediafile])
            if env.execFails then ⟨.exited 1, w.eprint (.perror "exec")⟩
            else ⟨.execed, w⟩
          else
            let w := w.call .fork
            if env.x_pid = -1 then ⟨.exited 1, w.eprint (.perror "fork")⟩
            else if env.x_pid = 0 then hotkeyChild env keyName keyModifier w
            else mainProcess env w

/-! ## Definitions used to state the properties -/

/-- The world a `Step` ends in. -/
def Step.world : Step → World
  | .next _ w => w
  | .brk w => w
  | .exit _ w => w

/-- The sequence ESC `[` `third` `more`, read at a key boundary with input
ready and the player running, is consumed exactly (`rest` is what remains),
reaches `key_command` as `code`, writes exactly `line` to the pipe and leaves
`quit` at 0, so that the loop goes on with the next iteration. -/
def Decodes (third : Byte) (more : List Byte) (code : Int) (line : String) : Prop :=
  ∀ (w : World) (rest : List Byte) (ps : List Poll),
    loopBody ready { w with stdin := 0x1b :: 0x5b :: third :: (more ++ rest) } =
      .next 0 { w with
        stdin := rest
        stderr := w.stderr ++ [.hex 0x5b] ++ [.hex (third.val : Int)]
        dispatched := w.dispatched ++ [code]
        mplayer_pipe := w.mplayer_pipe ++ [line] } ∧
    terminalLoop (ready :: ps)
        { w with stdin := 0x1b :: 0x5b :: third :: (more ++ rest) } =
      terminalLoop ps { w with
        stdin := rest
        stderr := w.stderr ++ [.hex 0x5b] ++ [.hex (third.val : Int)]
        dispatched := w.dispatched ++ [code]
        mplayer_pipe := w.mplayer_pipe ++ [line] }

/-- The dispatch table as the specification documents it: key code, line
written to the player, whether the loop ends. The first match wins. -/
def documentedTable : List (Int × String × Bool) :=
  [ (chr 'q', "quit\n", true),
    (chr ' ', "pause\n", false),
    (0x1b5b41, "seek 60 0\n", false),
    (0x1b5b42, "seek -60 0\n", false),
    (0x1b5b43, "seek 10 0\n", false),
    (0x1b5b44, "seek -10 0\n", false),
    (0x1b5b357e, "seek 600 0\n", false),
    (0x1b5b367e, "seek -600 0\n", false) ]

/-- The documented action for a key code, `none` for "anything else". -/
def documented (k : Int) : Option (String × Bool) := documentedTable.lookup k

/-- The lines the documented action writes. -/
def documentedLines (k : Int) : List String :=
  match documented k with
  | some (line, _) => [line]
  | none => []

/-- What one reading of a key does to the world, whatever the input. -/
def ReadKeyOk (w : World) : Step → Prop
  | .next quit w' =>
      w'.stdin.length < w.stdin.length ∧
      (w'.eofSeen = true → w.eofSeen = false →
        quit = 0 ∧ w'.stdin = [] ∧ w'.mplayer_pipe = w.mplayer_pipe ∧
        w'.dispatched = w.dispatched)
  | .brk w' =>
      w'.mplayer_pipe = w.mplayer_pipe ∧ w'.dispatched = w.dispatched ∧
      (w'.eofSeen = true → w.eofSeen = false → w'.stdin = [])
  | .exit _ _ => False

/-- Started with stdin holding exactly `bs`, the terminal loop (input ready,
player running) is over after at most two iterations, with end-of-stream
seen, nothing dispatched and nothing written to the player. -/
def EndsAtEof (bs : List Byte) : Prop :=
  ∀ (w : World) (ps : List Poll),
    ∃ w', terminalLoop (ready :: ready :: ps) { w with stdin := bs } = some (.left w') ∧
      w'.eofSeen = true ∧ w'.stdin = [] ∧
      w'.mplayer_pipe = w.mplayer_pipe ∧ w'.dispatched = w.dispatched

/-- A run of `main` that only reached the point of rejecting the arguments. -/
def Rejected (r : Run) (code : Int) (w : World) (msg : String) : Prop :=
  r = ⟨.exited code, w.eprint (.text msg)⟩

/-- The arguments of a run that asks for Ctrl+C with no media file. -/
def ctrlCNoMedia : Env :=
  { argv0 := "mplayer-transcribe", options := [('c', ""), ('k', "c")], operands := [],
    pipeFails := false, mplayer_pid := 100, execFails := false, x_pid := 101,
    keysymKnown := true, displayOpens := true, autoRepeat := true, events := [],
    polls := [] }

/-- A run of the main process: Shift+F4 as hotkey, a media file, both forks
in the parent, and the given polls. -/
def plainRun (polls : List Poll) : Env :=
  { argv0 := "mplayer-transcribe", options := [('s', "")], operands := ["talk.wav"],
    pipeFails := false, mplayer_pid := 100, execFails := false, x_pid := 101,
    keysymKnown := true, displayOpens := true, autoRepeat := true, events := [],
    polls := polls }

/-- A terminal in cooked mode: `c_lflag = 0x8a3b` has `ICANON` and `ECHO` set. -/
def cooked (bs : List Byte) : World := ⟨bs, false, [], [], [], [], 0x8a3b, []⟩

/-- What an iteration that starts with ESC may do: it leaves `quit` at 0, the
keys it passes to `key_command` (the list `ks`) are all greater than 0xff,
below 2^31 and different from the codes of q and of the space, and the lines
it writes to the pipe contain neither "quit" nor "pause". -/
def EscapeDispatch (w : World) (s : Step) : Prop :=
  (∀ quit w', s = .next quit w' → quit = 0) ∧
  ∃ (ks : List Int) (lines : List String),
    s.world.dispatched = w.dispatched ++ ks ∧
    s.world.mplayer_pipe = w.mplayer_pipe ++ lines ∧
    (∀ k ∈ ks, 0xFF < k ∧ k < 2 ^ 31 ∧ k ≠ chr 'q' ∧ k ≠ chr ' ') ∧
    "quit\n" ∉ lines ∧ "pause\n" ∉ lines

/-! ## Lemmas and theorems -/

theorem key_command_stdin (k : Int) (w : World) : (key_command k w).2.stdin = w.stdin := by
  unfold key_command; simp only []; split_ifs <;> rfl

theorem key_command_dispatched (k : Int) (w : World) :
    (key_command k w).2.dispatched = w.dispatched ++ [k] := by
  unfold key_command; simp only []; split_ifs <;> rfl

theorem key_command_eofSeen (k : Int) (w : World) :
    (key_command k w).2.eofSeen = w.eofSeen := by
  unfold key_command; simp only []; split_ifs <;> rfl

theorem byte_ne_EOF (b : Byte) : ((b.val : Int) = EOF) = False := by
  simp only [EOF, eq_iff_iff, iff_false]; omega

theorem byte_int_eq (b : Byte) (c : Byte) : ((b.val : Int) = (c.val : Int)) = (b = c) := by
  apply propext
  constructor
  · intro h; exact Fin.ext (by exact_mod_cast h)
  · intro h; rw [h]

theorem low8_lt (x : Int) : low8 x < 256 := by
  unfold low8; omega

theorem code3_eq (t : Int) : code3 t = 0x1b5b00 + (low8 t : Int) := by
  unfold code3
  have h := Nat.mul_add_lt_is_or (i := 8) (b := low8 t) (low8_lt t) 0x1b5b
  have e : (2 ^ 8 * 0x1b5b : Nat) = 0x1b5b00 := by norm_num
  rw [e] at h
  rw [← h]; push_cast; rfl

theorem code4_eq (b3 t : Int) :
    code4 b3 t = 0x1b5b0000 + 256 * (low8 b3 : Int) + (low8 t : Int) := by
  unfold code4
  have hb := low8_lt b3
  have ht := low8_lt t
  have h1 := Nat.mul_add_lt_is_or (i := 16) (b := low8 b3 <<< 8)
    (by rw [Nat.shiftLeft_eq]; omega) 0x1b5b
  have e1 : (2 ^ 16 * 0x1b5b : Nat) = 0x1b5b0000 := by norm_num
  rw [e1] at h1
  rw [← h1, Nat.shiftLeft_eq]
  have e2 : 0x1b5b0000 + low8 b3 * 2 ^ 8 = 2 ^ 8 * (0x1b5b00 + low8 b3) := by ring
  rw [e2, ← Nat.mul_add_lt_is_or (i := 8) ht]
  push_cast; ring

/-- C1: each of the six documented navigation sequences (the four arrows as
ESC `[` A/B/C/D, page-up and page-down as ESC `[` 5/6 `~`), read at a key
boundary of the terminal loop, is decoded to its packed code, makes
`key_command` write exactly the documented seek line, consumes exactly its 3
(resp. 4) bytes and does not end the loop. -/
theorem navigation_sequences_decode_and_dispatch :
    Decodes 0x41 [] 0x1b5b41 "seek 60 0\n" ∧
    Decodes 0x42 [] 0x1b5b42 "seek -60 0\n" ∧
    Decodes 0x43 [] 0x1b5b43 "seek 10 0\n" ∧
    Decodes 0x44 [] 0x1b5b44 "seek -10 0\n" ∧
    Decodes 0x35 [0x7e] 0x1b5b357e "seek 600 0\n" ∧
    Decodes 0x36 [0x7e] 0x1b5b367e "seek -600 0\n" :=
  ⟨fun _ _ _ => ⟨rfl, rfl⟩, fun _ _ _ => ⟨rfl, rfl⟩, fun _ _ _ => ⟨rfl, rfl⟩,
   fun _ _ _ => ⟨rfl, rfl⟩, fun _ _ _ => ⟨rfl, rfl⟩, fun _ _ _ => ⟨rfl, rfl⟩⟩

/-- C2: `key_command` implements exactly the documented dispatch table. For
every integer key code it appends to the pipe exactly the line the table gives
for that code (nothing for a code that is not in the table, where the world is
left as it was apart from the ghost record of the call), it returns 1 exactly
for the code of the letter q, and otherwise 0; the table gives "quit" for q
and "pause" for the space. -/
theorem key_command_implements_documented_table (k : Int) (w : World) :
    (key_command k w).2.mplayer_pipe = w.mplayer_pipe ++ documentedLines k ∧
    ((key_command k w).1 = 1 ↔ k = chr 'q') ∧
    ((key_command k w).1 = 1 ↔ ∃ line, documented k = some (line, true)) ∧
    ((key_command k w).1 = 0 ∨ (key_command k w).1 = 1) ∧
    (documented k = none →
      key_command k w = (0, { w with dispatched := w.dispatched ++ [k] })) ∧
    documentedLines (chr 'q') = ["quit\n"] ∧
    documentedLines (chr ' ') = ["pause\n"] := by
  have hq : chr 'q' = 113 := rfl
  have hs : chr ' ' = 32 := rfl
  unfold key_command documentedLines documented documentedTable
  simp only [hq, hs, List.lookup]
  by_cases h1 : k = 113
  · subst h1; simp [World.send, World.print]
  by_cases h2 : k = 32
  · subst h2; simp [World.send, World.print]
  by_cases h3 : k = 0x1b5b41
  · subst h3; simp [World.send, World.print]
  by_cases h4 : k = 0x1b5b42
  · subst h4; simp [World.send, World.print]
  by_cases h5 : k = 0x1b5b43
  · subst h5; simp [World.send, World.print]
  by_cases h6 : k = 0x1b5b44
  · subst h6; simp [World.send, World.print]
  by_cases h7 : k = 0x1b5b357e
  · subst h7; simp [World.send, World.print]
  by_cases h8 : k = 0x1b5b367e
  · subst h8; simp [World.send, World.print]
  have e1 : (k == 113) = false := beq_eq_false_iff_ne.mpr h1
  have e2 : (k == 32) = false := beq_eq_false_iff_ne.mpr h2
  have e3 : (k == 0x1b5b41) = false := beq_eq_false_iff_ne.mpr h3
  have e4 : (k == 0x1b5b42) = false := beq_eq_false_iff_ne.mpr h4
  have e5 : (k == 0x1b5b43) = false := beq_eq_false_iff_ne.mpr h5
  have e6 : (k == 0x1b5b44) = false := beq_eq_false_iff_ne.mpr h6
  have e7 : (k == 0x1b5b357e) = false := beq_eq_false_iff_ne.mpr h7
  have e8 : (k == 0x1b5b367e) = false := beq_eq_false_iff_ne.mpr h8
  simp [h1, h2, h3, h4, h5, h6, h7, h8, e1, e2, e3, e4, e5, e6, e7, e8]

theorem key_command_implements_documented_table_witness :
    key_command 0x61 ⟨[], false, [], [], [], [], 10, []⟩ =
      (0, { (⟨[], false, [], [], [], [], 10, []⟩ : World) with dispatched := [] ++ [0x61] }) :=
  (key_command_implements_documented_table 0x61 ⟨[], false, [], [], [], [], 10, []⟩).2.2.2.2.1
    (by decide)

/-- C3: a byte other than ESC (0x1b) read at a key boundary is consumed alone
(the rest of stdin is untouched) and `key_command` is called with exactly that
byte as key code; the iteration ends as `key_command` decides. -/
theorem plain_byte_is_its_own_key_code (b : Byte) (hb : b ≠ 0x1b) (w : World)
    (rest : List Byte) :
    ∃ quit w', loopBody ready { w with stdin := b :: rest } = .next quit w' ∧
      (quit, w') = key_command (b.val : Int) { w with stdin := rest } ∧
      w'.stdin = rest ∧
      w'.dispatched = w.dispatched ++ [(b.val : Int)] := by
  have h2 : ((b.val : Int) = 0x1b) = False := by
    have := byte_int_eq b 0x1b
    simp only [eq_iff_iff, iff_false]
    intro h
    exact hb (this ▸ h)
  refine ⟨(key_command (b.val : Int) { w with stdin := rest }).1,
    (key_command (b.val : Int) { w with stdin := rest }).2, ?_, rfl, ?_, ?_⟩
  · simp only [loopBody, ready, readKey, getchar, byte_ne_EOF, h2]
    simp
  · rw [key_command_stdin]
  · rw [key_command_dispatched]

theorem plain_byte_is_its_own_key_code_witness :
    ∃ quit w', loopBody ready
        { (⟨[], false, [], [], [], [], 10, []⟩ : World) with stdin := 0x71 :: [0x20] } =
        .next quit w' ∧
      (quit, w') = key_command ((0x71 : Byte).val : Int)
        { (⟨[], false, [], [], [], [], 10, []⟩ : World) with stdin := [0x20] } ∧
      w'.stdin = [0x20] ∧
      w'.dispatched = [] ++ [((0x71 : Byte).val : Int)] :=
  plain_byte_is_its_own_key_code 0x71 (by decide) ⟨[], false, [], [], [], [], 10, []⟩ [0x20]

theorem byte_int_ne (b c : Byte) (h : b ≠ c) : ((b.val : Int) = (c.val : Int)) = False := by
  rw [byte_int_eq]; exact eq_false h

theorem skipRest_final (w : World) (pre : List Byte) (t : Byte) (post : List Byte)
    (hpre : ∀ b ∈ pre, isFinal (b.val : Int) = false) (ht : isFinal (t.val : Int) = true) :
    skipRest w (pre ++ t :: post) = { w with stdin := post } := by
  induction pre with
  | nil => simp [skipRest, ht]
  | cons b pre ih =>
    have hb : isFinal (b.val : Int) = false := hpre b (List.mem_cons_self _ _)
    simp only [List.cons_append, skipRest, hb]
    exact ih (fun c hc => hpre c (List.mem_cons_of_mem _ hc))

theorem skipRest_none (w : World) (bs : List Byte)
    (hbs : ∀ b ∈ bs, isFinal (b.val : Int) = false) :
    skipRest w bs = { w with stdin := [], eofSeen := true } := by
  induction bs with
  | nil => rfl
  | cons b bs ih =>
    have hb : isFinal (b.val : Int) = false := hbs b (List.mem_cons_self _ _)
    simp only [skipRest, hb]
    exact ih (fun c hc => hbs c (List.mem_cons_of_mem _ hc))

theorem skipRest_stdin_irrelevant (w : World) (x bs : List Byte) :
    skipRest { w with stdin := x } bs = skipRest w bs := by
  induction bs with
  | nil => rfl
  | cons b bs ih =>
    unfold skipRest
    split_ifs
    · rfl
    · exact ih

/-- The skipping loop of the model is the C loop: read one character with
`getchar`; stop at `EOF` or at a byte in 0x40..0x7e, otherwise go round again. -/
theorem drain_eq_getchar_loop (w : World) :
    drain w =
      if (getchar w).1 = EOF then (getchar w).2
      else if isFinal (getchar w).1 then (getchar w).2
      else drain (getchar w).2 := by
  obtain ⟨stdin, e, pipe, out, err, disp, fl, sys⟩ := w
  cases stdin with
  | nil => rfl
  | cons b rest =>
    simp only [drain, getchar, byte_ne_EOF, if_false, skipRest]
    split_ifs
    · rfl
    · exact (skipRest_stdin_irrelevant _ rest rest).symm

theorem skipRest_frame (w : World) (bs : List Byte) :
    (skipRest w bs).mplayer_pipe = w.mplayer_pipe ∧
    (skipRest w bs).dispatched = w.dispatched ∧
    (skipRest w bs).stdout = w.stdout ∧
    (skipRest w bs).stderr = w.stderr ∧
    (skipRest w bs).c_lflag = w.c_lflag ∧
    (skipRest w bs).sys = w.sys := by
  induction bs with
  | nil => exact ⟨rfl, rfl, rfl, rfl, rfl, rfl⟩
  | cons b bs ih =>
    unfold skipRest
    split_ifs
    · exact ⟨rfl, rfl, rfl, rfl, rfl, rfl⟩
    · exact ih

theorem skipRest_stdin_le (w : World) (bs : List Byte) :
    (skipRest w bs).stdin.length ≤ bs.length := by
  induction bs with
  | nil => simp [skipRest]
  | cons b bs ih =>
    unfold skipRest
    split_ifs
    · simp
    · simp only [List.length_cons]; omega

theorem skipRest_eof (w : World) (bs : List Byte) (h : (skipRest w bs).eofSeen = true) :
    w.eofSeen = true ∨ (skipRest w bs).stdin = [] := by
  induction bs with
  | nil => right; rfl
  | cons b bs ih =>
    unfold skipRest at h ⊢
    split_ifs at h ⊢
    · left; exact h
    · exact ih h

/-- C4: when a key starts with ESC and the next byte is not `[` (0x5b), or the
stream ends there, the loop body executes `break` right after that second
read: nothing further is consumed, `key_command` is not called, nothing is
written to the pipe (the world only gains the two messages on stderr), and the
terminal loop is over. -/
theorem strange_escape_aborts (w : World) (ps : List Poll) :
    (∀ (b2 : Byte) (rest : List Byte), b2 ≠ 0x5b →
      loopBody ready { w with stdin := 0x1b :: b2 :: rest } =
        .brk { w with stdin := rest
                      stderr := w.stderr ++ [.hex (b2.val : Int)] ++ [strangeWarning] } ∧
      terminalLoop (ready :: ps) { w with stdin := 0x1b :: b2 :: rest } =
        some (.left { w with stdin := rest
                             stderr := w.stderr ++ [.hex (b2.val : Int)] ++ [strangeWarning] })) ∧
    loopBody ready { w with stdin := [0x1b] } =
      .brk { w with stdin := [], eofSeen := true
                    stderr := w.stderr ++ [.hex EOF] ++ [strangeWarning] } ∧
    terminalLoop (ready :: ps) { w with stdin := [0x1b] } =
      some (.left { w with stdin := [], eofSeen := true
                           stderr := w.stderr ++ [.hex EOF] ++ [strangeWarning] }) := by
  have key : ∀ (b2 : Byte) (rest : List Byte), b2 ≠ 0x5b →
      loopBody ready { w with stdin := 0x1b :: b2 :: rest } =
        .brk { w with stdin := rest
                      stderr := w.stderr ++ [.hex (b2.val : Int)] ++ [strangeWarning] } := by
    intro b2 rest hb2
    have h : ((b2.val : Int) = 0x5b) = False := byte_int_ne b2 0x5b hb2
    have h1 : (((0x1b : Byte).val : Int) = EOF) = False := byte_ne_EOF _
    have h2 : (((0x1b : Byte).val : Int) = 0x1b) = True := eq_true rfl
    simp only [loopBody, ready, readKey, getchar, h1, h2, ne_eq, h, World.eprint, strangeWarning]
    simp
  refine ⟨fun b2 rest hb2 => ⟨key b2 rest hb2, ?_⟩, rfl, rfl⟩
  simp only [terminalLoop, key b2 rest hb2]

theorem strange_escape_aborts_witness :
    loopBody ready { (⟨[], false, [], [], [], [], 10, []⟩ : World) with
        stdin := 0x1b :: 0x4f :: [0x50] } =
      .brk { (⟨[], false, [], [], [], [], 10, []⟩ : World) with
        stdin := [0x50]
        stderr := [] ++ [.hex ((0x4f : Byte).val : Int)] ++ [strangeWarning] } :=
  ((strange_escape_aborts ⟨[], false, [], [], [], [], 10, []⟩ []).1 0x4f [0x50]
    (by decide)).1

/-- C5: for input ESC `[` b3 b4 rest with b3 and b4 both outside 0x40..0x7e,
one iteration consumes the four bytes and then the bytes of `rest` up to and
including the first one in 0x40..0x7e (all of `rest` when there is none);
`key_command` is not called, nothing is written to the pipe or to stdout,
`quit` stays 0 and the loop goes on with what follows the terminator. -/
theorem unrecognized_sequence_is_drained (w : World) (b3 b4 : Byte) (rest : List Byte)
    (ps : List Poll)
    (h3 : isFinal (b3.val : Int) = false) (h4 : isFinal (b4.val : Int) = false) :
    ∃ w', loopBody ready { w with stdin := 0x1b :: 0x5b :: b3 :: b4 :: rest } = .next 0 w' ∧
      terminalLoop (ready :: ps) { w with stdin := 0x1b :: 0x5b :: b3 :: b4 :: rest } =
        terminalLoop ps w' ∧
      w'.dispatched = w.dispatched ∧
      w'.mplayer_pipe = w.mplayer_pipe ∧
      w'.stdout = w.stdout ∧
      (∀ pre t post, rest = pre ++ t :: post →
        (∀ b ∈ pre, isFinal (b.val : Int) = false) → isFinal (t.val : Int) = true →
        w'.stdin = post ∧ w'.eofSeen = w.eofSeen) ∧
      ((∀ b ∈ rest, isFinal (b.val : Int) = false) → w'.stdin = [] ∧ w'.eofSeen = true) := by
  have body : loopBody ready { w with stdin := 0x1b :: 0x5b :: b3 :: b4 :: rest } =
      .next 0 (skipRest { w with stdin := rest
                                 stderr := w.stderr ++ [.hex 0x5b] ++ [.hex (b3.val : Int)] }
                rest) := by
    have h1 : (((0x1b : Byte).val : Int) = EOF) = False := byte_ne_EOF _
    have h2 : (((0x1b : Byte).val : Int) = 0x1b) = True := eq_true rfl
    have h5 : (((0x5b : Byte).val : Int) = 0x5b) = True := eq_true rfl
    simp only [loopBody, ready, readKey, getchar, h1, h2, h3, h4, h5, ne_eq, World.eprint,
      drain]
    simp
    rfl
  refine ⟨_, body, ?_, ?_, ?_, ?_, ?_, ?_⟩
  · simp only [terminalLoop, body]; simp
  · exact (skipRest_frame _ rest).2.1
  · exact (skipRest_frame _ rest).1
  · exact (skipRest_frame _ rest).2.2.1
  · intro pre t post hr hpre ht
    subst hr
    rw [skipRest_final _ pre t post hpre ht]
    exact ⟨rfl, rfl⟩
  · intro hall
    rw [skipRest_none _ rest hall]
    exact ⟨rfl, rfl⟩

theorem unrecognized_sequence_is_drained_witness :
    ∃ w', loopBody ready { (⟨[], false, [], [], [], [], 10, []⟩ : World) with
        stdin := 0x1b :: 0x5b :: 0x31 :: 0x35 :: [0x3b, 0x32, 0x7e, 0x71] } = .next 0 w' ∧
      terminalLoop (ready :: [ready])
        { (⟨[], false, [], [], [], [], 10, []⟩ : World) with
          stdin := 0x1b :: 0x5b :: 0x31 :: 0x35 :: [0x3b, 0x32, 0x7e, 0x71] } =
        terminalLoop [ready] w' ∧
      w'.dispatched = [] ∧
      w'.mplayer_pipe = [] ∧
      w'.stdout = [] ∧
      (∀ pre t post, [0x3b, 0x32, 0x7e, 0x71] = pre ++ t :: post →
        (∀ b ∈ pre, isFinal (b.val : Int) = false) → isFinal (t.val : Int) = true →
        w'.stdin = post ∧ w'.eofSeen = false) ∧
      ((∀ b ∈ ([0x3b, 0x32, 0x7e, 0x71] : List Byte), isFinal (b.val : Int) = false) →
        w'.stdin = [] ∧ w'.eofSeen = true) :=
  unrecognized_sequence_is_drained ⟨[], false, [], [], [], [], 10, []⟩ 0x31 0x35
    [0x3b, 0x32, 0x7e, 0x71] [ready] (by decide) (by decide)

theorem key_command_ret (k : Int) (w : World) :
    (key_command k w).1 = if k = chr 'q' then 1 else 0 := by
  unfold key_command
  simp only []
  split_ifs <;> rfl

theorem low8_of_final (t : Int) (ht : isFinal t = true) : (low8 t : Int) = t := by
  unfold isFinal at ht
  simp only [Bool.and_eq_true, decide_eq_true_eq] at ht
  unfold low8
  omega

theorem isFinal_EOF : isFinal EOF = false := rfl

theorem readKey_ok (w : World) : ReadKeyOk w (readKey w) := by
  obtain ⟨stdin, e, pipe, out, err, disp, fl, sys⟩ := w
  rcases stdin with _ | ⟨b1, _ | ⟨b2, _ | ⟨b3, _ | ⟨b4, rest⟩⟩⟩⟩
  all_goals simp only [readKey, getchar, byte_ne_EOF, World.eprint, drain, isFinal_EOF]
  all_goals split_ifs
  all_goals simp only [ReadKeyOk, key_command_stdin, key_command_eofSeen, skipRest,
    List.length_cons, List.length_nil]
  all_goals try simp
  all_goals try (intro h1 h2; rw [h1] at h2; exact absurd h2 (by decide))
  · refine ⟨by omega, fun h1 h2 => ?_⟩
    rw [h1] at h2; exact absurd h2 (by decide)
  · refine ⟨?_, fun h1 h2 => ?_⟩
    · have := skipRest_stdin_le
        { stdin := rest, eofSeen := e, mplayer_pipe := pipe, stdout := out,
          stderr := err ++ [Diag.hex (b2.val : Int), Diag.hex (b3.val : Int)],
          dispatched := disp, c_lflag := fl, sys := sys } rest
      omega
    · have f := skipRest_frame
        { stdin := rest, eofSeen := e, mplayer_pipe := pipe, stdout := out,
          stderr := err ++ [Diag.hex (b2.val : Int), Diag.hex (b3.val : Int)],
          dispatched := disp, c_lflag := fl, sys := sys } rest
      rcases skipRest_eof _ _ h1 with h | h
      · exact absurd (h2 ▸ h : false = true) (by decide)
      · exact ⟨h, f.1, f.2.1⟩

theorem loopBody_ready (w : World) : loopBody ready w = readKey w := rfl

theorem terminalLoop_terminates (n : Nat) :
    ∀ w : World, w.stdin.length < n →
      ∃ w', terminalLoop (List.replicate n ready) w = some (.left w') := by
  induction n with
  | zero => intro w h; exact absurd h (Nat.not_lt_zero _)
  | succ n ih =>
    intro w h
    have ok := readKey_ok w
    simp only [List.replicate, terminalLoop, loopBody_ready]
    cases hr : readKey w with
    | next quit w' =>
      rw [hr] at ok
      by_cases hq : quit ≠ 0
      · exact ⟨w', by simp [hq]⟩
      · obtain ⟨w'', hw''⟩ := ih w' (by have := ok.1; omega)
        exact ⟨w'', by simp [hq, hw'']⟩
    | brk w' => exact ⟨w', rfl⟩
    | exit c w' => rw [hr] at ok; exact ok.elim

theorem readKey_at_eof (w : World) (h : w.stdin = []) :
    readKey w = .brk { w with eofSeen := true } := by
  obtain ⟨stdin, e, pipe, out, err, disp, fl, sys⟩ := w
  simp only at h
  subst h
  rfl

theorem eof_ends_loop (w : World) (hw : w.eofSeen = true → w.stdin = [])
    (h : (loopBody ready w).world.eofSeen = true) :
    (loopBody ready w).world.mplayer_pipe = w.mplayer_pipe ∧
    (loopBody ready w).world.dispatched = w.dispatched ∧
    ∀ n, ∃ w', terminalLoop (List.replicate (n + 2) ready) w = some (.left w') ∧
      w'.mplayer_pipe = w.mplayer_pipe ∧ w'.dispatched = w.dispatched := by
  rw [loopBody_ready] at h ⊢
  by_cases he : w.eofSeen = true
  · have hr := readKey_at_eof w (hw he)
    rw [hr]
    refine ⟨rfl, rfl, fun n => ⟨{ w with eofSeen := true }, ?_, rfl, rfl⟩⟩
    simp only [List.replicate, terminalLoop, loopBody_ready, hr]
  · have he' : w.eofSeen = false := by simpa using he
    have ok := readKey_ok w
    cases hr : readKey w with
    | next quit w' =>
      rw [hr] at ok h
      simp only [Step.world] at h ⊢
      obtain ⟨hq, hs, hp, hd⟩ := ok.2 h he'
      refine ⟨hp, hd, fun n => ⟨{ w' with eofSeen := true }, ?_, hp, hd⟩⟩
      simp only [List.replicate, terminalLoop, loopBody_ready, hr, hq, readKey_at_eof w' hs]
      simp
    | brk w' =>
      rw [hr] at ok
      exact ⟨ok.1, ok.2.1, fun n => ⟨w', by
        simp only [List.replicate, terminalLoop, loopBody_ready, hr], ok.1, ok.2.1⟩⟩
    | exit c w' => rw [hr] at ok; exact ok.elim

theorem eof_invariant_preserved (w : World) (hw : w.eofSeen = true → w.stdin = [])
    (h : (loopBody ready w).world.eofSeen = true) : (loopBody ready w).world.stdin = [] := by
  rw [loopBody_ready] at h ⊢
  by_cases he : w.eofSeen = true
  · rw [readKey_at_eof w (hw he)]
    exact hw he
  · have he' : w.eofSeen = false := by simpa using he
    have ok := readKey_ok w
    cases hr : readKey w with
    | next quit w' =>
      rw [hr] at ok h
      exact (ok.2 h he').2.1
    | brk w' =>
      rw [hr] at ok h
      exact ok.2.2 h he'
    | exit c w' => rw [hr] at ok; exact ok.elim

theorem loopBody_unrecognized (w : World) (b3 b4 : Byte) (rest : List Byte)
    (h3 : isFinal (b3.val : Int) = false) (h4 : isFinal (b4.val : Int) = false) :
    loopBody ready { w with stdin := 0x1b :: 0x5b :: b3 :: b4 :: rest } =
      .next 0 (skipRest { w with stdin := rest
                                 stderr := w.stderr ++ [.hex 0x5b] ++ [.hex (b3.val : Int)] }
                rest) := by
  have h1 : (((0x1b : Byte).val : Int) = EOF) = False := byte_ne_EOF _
  have h2 : (((0x1b : Byte).val : Int) = 0x1b) = True := eq_true rfl
  have h5 : (((0x5b : Byte).val : Int) = 0x5b) = True := eq_true rfl
  simp only [loopBody, ready, readKey, getchar, h1, h2, h3, h4, h5, ne_eq, World.eprint,
    drain]
  simp
  rfl

theorem endsAtEof_three (b3 : Byte) (h3 : isFinal (b3.val : Int) = false) :
    EndsAtEof [0x1b, 0x5b, b3] := by
  intro w ps
  have body : loopBody ready { w with stdin := [0x1b, 0x5b, b3] } =
      .next 0 { w with stdin := [], eofSeen := true
                       stderr := w.stderr ++ [.hex 0x5b] ++ [.hex (b3.val : Int)] } := by
    have h1 : (((0x1b : Byte).val : Int) = EOF) = False := byte_ne_EOF _
    have h2 : (((0x1b : Byte).val : Int) = 0x1b) = True := eq_true rfl
    have h5 : (((0x5b : Byte).val : Int) = 0x5b) = True := eq_true rfl
    simp only [loopBody, ready, readKey, getchar, h1, h2, h3, h5, ne_eq, World.eprint,
      drain, isFinal_EOF, skipRest]
    simp
    rfl
  refine ⟨{ w with stdin := [], eofSeen := true
                   stderr := w.stderr ++ [.hex 0x5b] ++ [.hex (b3.val : Int)] },
    ?_, rfl, rfl, rfl, rfl⟩
  simp only [terminalLoop, body]
  rfl

theorem endsAtEof_drain (b3 b4 : Byte) (rest : List Byte)
    (h3 : isFinal (b3.val : Int) = false) (h4 : isFinal (b4.val : Int) = false)
    (hr : ∀ b ∈ rest, isFinal (b.val : Int) = false) :
    EndsAtEof (0x1b :: 0x5b :: b3 :: b4 :: rest) := by
  intro w ps
  refine ⟨{ w with stdin := [], eofSeen := true
                   stderr := w.stderr ++ [.hex 0x5b] ++ [.hex (b3.val : Int)] },
    ?_, rfl, rfl, rfl, rfl⟩
  simp only [terminalLoop, loopBody_unrecognized w b3 b4 rest h3 h4, skipRest_none _ rest hr]
  rfl

/-- C7: with input reported ready and the player running, the terminal loop
ends on every finite input, within one iteration more than there are unread
bytes. An iteration in which end-of-stream is observed writes nothing to the
pipe and dispatches nothing, and the loop is over after at most one further
iteration, still with the same pipe content. This covers end-of-stream at a
key boundary, after ESC, after ESC `[`, as fourth byte and inside a sequence
that is being skipped. The condition on the world (once end-of-stream has been
seen nothing is left to read) holds initially and is kept by every iteration. -/
theorem terminal_loop_terminates_and_eof_ends_it :
    (∀ (w : World) (n : Nat), w.stdin.length < n →
      ∃ w', terminalLoop (List.replicate n ready) w = some (.left w')) ∧
    (∀ w : World, (w.eofSeen = true → w.stdin = []) →
      (loopBody ready w).world.eofSeen = true →
      (loopBody ready w).world.mplayer_pipe = w.mplayer_pipe ∧
      (loopBody ready w).world.dispatched = w.dispatched ∧
      ∀ n, ∃ w', terminalLoop (List.replicate (n + 2) ready) w = some (.left w') ∧
        w'.mplayer_pipe = w.mplayer_pipe ∧ w'.dispatched = w.dispatched) ∧
    EndsAtEof [] ∧
    EndsAtEof [0x1b] ∧
    EndsAtEof [0x1b, 0x5b] ∧
    (∀ b3 : Byte, isFinal (b3.val : Int) = false → EndsAtEof [0x1b, 0x5b, b3]) ∧
    (∀ (b3 b4 : Byte) (rest : List Byte), isFinal (b3.val : Int) = false →
      isFinal (b4.val : Int) = false → (∀ b ∈ rest, isFinal (b.val : Int) = false) →
      EndsAtEof (0x1b :: 0x5b :: b3 :: b4 :: rest)) ∧
    (∀ w : World, (w.eofSeen = true → w.stdin = []) →
      (loopBody ready w).world.eofSeen = true → (loopBody ready w).world.stdin = []) :=
  ⟨fun w n h => terminalLoop_terminates n w h, eof_ends_loop,
   fun w _ => ⟨{ w with stdin := [], eofSeen := true }, rfl, rfl, rfl, rfl, rfl⟩,
   fun w _ => ⟨{ w with stdin := [], eofSeen := true
                        stderr := w.stderr ++ [.hex EOF] ++ [strangeWarning] },
     rfl, rfl, rfl, rfl, rfl⟩,
   fun w _ => ⟨{ w with stdin := [], eofSeen := true
                        stderr := w.stderr ++ [.hex 0x5b] ++ [.hex EOF] },
     rfl, rfl, rfl, rfl, rfl⟩,
   endsAtEof_three, endsAtEof_drain, eof_invariant_preserved⟩

theorem terminal_loop_terminates_and_eof_ends_it_witness :
    (∃ w', terminalLoop (List.replicate 3 ready)
        (⟨[0x20, 0x20], false, [], [], [], [], 10, []⟩ : World) = some (.left w')) ∧
    EndsAtEof [0x1b, 0x5b, 0x31] :=
  ⟨terminal_loop_terminates_and_eof_ends_it.1 ⟨[0x20, 0x20], false, [], [], [], [], 10, []⟩ 3
    (by decide),
   terminal_loop_terminates_and_eof_ends_it.2.2.2.2.2.1 0x31 (by decide)⟩

/-- C9, as stated, fails: the options `-c -k c` without a media file pass
option parsing with modifier Control and key name "c", yet `main` ends with
code 1 ("Missing argument"), not 10. -/
theorem ctrl_c_without_media_file_exits_1 :
    parseOptions ctrlCNoMedia.argv0 ctrlCNoMedia.options "F4" 0
        ⟨[], false, [], [], [], [], 10, []⟩ = .ok "c" ControlMask ∧
    (main ctrlCNoMedia ⟨[], false, [], [], [], [], 10, []⟩).outcome = .exited 1 ∧
    (main ctrlCNoMedia ⟨[], false, [], [], [], [], 10, []⟩).outcome ≠ .exited 10 := by
  decide

/-- C9, amended: when option parsing ends with modifier mask exactly Control
and key name "c" or "C", `main` ends before the pipe is created, before any
fork and before any key grab, and the terminal is untouched: with exit code 10
when a media file argument is present, and with exit code 1 (missing media
file) when there is none. -/
theorem ctrl_c_rejected_before_any_child (env : Env) (w : World) (keyName : String)
    (hparse : parseOptions env.argv0 env.options "F4" 0 w = .ok keyName ControlMask)
    (hkey : keyName = "c" ∨ keyName = "C") :
    (env.operands ≠ [] →
      Rejected (main env w) 10 w "Grabbing Ctrl+C is a bad idea. I won\x27t do that.\n") ∧
    (env.operands = [] → Rejected (main env w) 1 w "Missing argument: media file.\n") ∧
    (main env w).world.sys = w.sys ∧
    (main env w).world.mplayer_pipe = w.mplayer_pipe ∧
    (main env w).world.c_lflag = w.c_lflag := by
  have hcond : (ControlMask = ControlMask ∧ strlen keyName = 1 ∧
      (firstIs keyName 'c' = true ∨ firstIs keyName 'C' = true)) := by
    rcases hkey with h | h <;> subst h <;> decide
  cases hop : env.operands with
  | nil =>
    have hm : main env w = ⟨.exited 1, w.eprint (.text "Missing argument: media file.\n")⟩ := by
      simp only [main, hparse, hop]
    exact ⟨fun h => absurd rfl h, fun _ => hm, by rw [hm]; rfl, by rw [hm]; rfl,
      by rw [hm]; rfl⟩
  | cons mediafile rest =>
    have hm : main env w = ⟨.exited 10,
        w.eprint (.text "Grabbing Ctrl+C is a bad idea. I won\x27t do that.\n")⟩ := by
      simp only [main, hparse, hop]
      exact if_pos ⟨trivial, hcond.2⟩
    exact ⟨fun _ => hm, fun h => absurd h (by simp), by rw [hm]; rfl, by rw [hm]; rfl,
      by rw [hm]; rfl⟩

theorem ctrl_c_rejected_before_any_child_witness :
    Rejected (main { ctrlCNoMedia with operands := ["talk.wav"] }
        ⟨[], false, [], [], [], [], 10, []⟩) 10 ⟨[], false, [], [], [], [], 10, []⟩
      "Grabbing Ctrl+C is a bad idea. I won\x27t do that.\n" :=
  (ctrl_c_rejected_before_any_child { ctrlCNoMedia with operands := ["talk.wav"] }
    ⟨[], false, [], [], [], [], 10, []⟩ "c" (by decide) (Or.inl rfl)).1 (by decide)

/-- C10, evaluated where it fails: the terminal starts cooked (`c_lflag`
0x8a3b). When `select` returns -1 in the first iteration, or `waitpid`
returns -1, the process ends with code 1 and the terminal still has `ICANON`
and `ECHO` cleared (0x8a31), unlike the saved settings. When the loop is left
by the quit key the saved settings are back. -/
theorem terminal_left_raw_when_select_or_waitpid_fails :
    (main (plainRun [⟨-1, 0⟩]) (cooked [0x71])).outcome = .exited 1 ∧
    (main (plainRun [⟨-1, 0⟩]) (cooked [0x71])).world.c_lflag = 0x8a31 ∧
    (main (plainRun [⟨-1, 0⟩]) (cooked [0x71])).world.c_lflag ≠ (cooked [0x71]).c_lflag ∧
    (main (plainRun [⟨1, -1⟩]) (cooked [0x71])).outcome = .exited 1 ∧
    (main (plainRun [⟨1, -1⟩]) (cooked [0x71])).world.c_lflag ≠ (cooked [0x71]).c_lflag ∧
    (main (plainRun [ready]) (cooked [0x71])).outcome = .exited 0 ∧
    (main (plainRun [ready]) (cooked [0x71])).world.c_lflag = (cooked [0x71]).c_lflag := by
  decide

theorem key_command_lines (k : Int) (w : World) :
    ∃ lines, (key_command k w).2.mplayer_pipe = w.mplayer_pipe ++ lines ∧
      ("quit\n" ∈ lines → k = chr 'q') ∧ ("pause\n" ∈ lines → k = chr ' ') := by
  unfold key_command
  simp only []
  split_ifs with h1 h2
  · exact ⟨["quit\n"], rfl, fun _ => h1, fun h => absurd h (by decide)⟩
  · exact ⟨["pause\n"], rfl, fun h => absurd h (by decide), fun _ => h2⟩
  · exact ⟨["seek 60 0\n"], rfl, fun h => absurd h (by decide), fun h => absurd h (by decide)⟩
  · exact ⟨["seek -60 0\n"], rfl, fun h => absurd h (by decide), fun h => absurd h (by decide)⟩
  · exact ⟨["seek 10 0\n"], rfl, fun h => absurd h (by decide), fun h => absurd h (by decide)⟩
  · exact ⟨["seek -10 0\n"], rfl, fun h => absurd h (by decide), fun h => absurd h (by decide)⟩
  · exact ⟨["seek 600 0\n"], rfl, fun h => absurd h (by decide), fun h => absurd h (by decide)⟩
  · exact ⟨["seek -600 0\n"], rfl, fun h => absurd h (by decide), fun h => absurd h (by decide)⟩
  · exact ⟨[], (List.append_nil _).symm, fun h => absurd h (by decide),
      fun h => absurd h (by decide)⟩

theorem escape_packed (k : Int) (w0 w : World) (hk1 : 0xFF < k) (hk2 : k < 2 ^ 31)
    (hd : w.dispatched = w0.dispatched) (hp : w.mplayer_pipe = w0.mplayer_pipe) :
    EscapeDispatch w0 (.next (key_command k w).1 (key_command k w).2) := by
  have hq : chr 'q' = 113 := rfl
  have hs : chr ' ' = 32 := rfl
  have nq : k ≠ chr 'q' := by rw [hq]; omega
  have ns : k ≠ chr ' ' := by rw [hs]; omega
  obtain ⟨lines, hl, hlq, hls⟩ := key_command_lines k w
  refine ⟨?_, [k], lines, ?_, ?_, ?_, fun h => nq (hlq h), fun h => ns (hls h)⟩
  · intro quit w' h
    injection h with h1 _
    rw [← h1, key_command_ret, if_neg nq]
  · simp only [Step.world]
    rw [key_command_dispatched, hd]
  · simp only [Step.world]
    rw [hl, hp]
  · intro k' hk'
    rw [List.mem_singleton] at hk'
    subst hk'
    exact ⟨hk1, hk2, nq, ns⟩

theorem escape_quiet_next (w0 w : World)
    (hd : w.dispatched = w0.dispatched) (hp : w.mplayer_pipe = w0.mplayer_pipe) :
    EscapeDispatch w0 (.next 0 w) := by
  refine ⟨?_, [], [], ?_, ?_, ?_, by decide, by decide⟩
  · intro quit w' h
    injection h with h1 _
    exact h1.symm
  · simp only [Step.world, List.append_nil]; exact hd
  · simp only [Step.world, List.append_nil]; exact hp
  · intro k hk; exact absurd hk (List.not_mem_nil _)

theorem escape_quiet_brk (w0 w : World)
    (hd : w.dispatched = w0.dispatched) (hp : w.mplayer_pipe = w0.mplayer_pipe) :
    EscapeDispatch w0 (.brk w) := by
  refine ⟨?_, [], [], ?_, ?_, ?_, by decide, by decide⟩
  · intro quit w' h
    exact Step.noConfusion h
  · simp only [Step.world, List.append_nil]; exact hd
  · simp only [Step.world, List.append_nil]; exact hp
  · intro k hk; exact absurd hk (List.not_mem_nil _)

theorem code3_range (t : Int) : 0xFF < code3 t ∧ code3 t < 2 ^ 31 := by
  have h3 := code3_eq t
  have lt := low8_lt t
  constructor <;> omega

theorem code4_range (b3 t : Int) : 0xFF < code4 b3 t ∧ code4 b3 t < 2 ^ 31 := by
  have h4 := code4_eq b3 t
  have l3 := low8_lt b3
  have lt := low8_lt t
  constructor <;> omega

theorem escape_iteration (w : World) (rest : List Byte) :
    EscapeDispatch w (loopBody ready { w with stdin := 0x1b :: rest }) := by
  have h1 : (((0x1b : Byte).val : Int) = EOF) = False := byte_ne_EOF _
  have h2 : (((0x1b : Byte).val : Int) = 0x1b) = True := eq_true rfl
  rw [loopBody_ready]
  obtain ⟨stdin, e, pipe, out, err, disp, fl, sys⟩ := w
  rcases rest with _ | ⟨b2, _ | ⟨b3, _ | ⟨b4, rest⟩⟩⟩
  all_goals simp only [readKey, getchar, h1, h2, if_false, if_true, World.eprint, drain,
    isFinal_EOF]
  all_goals split_ifs
  all_goals first
    | exact escape_quiet_brk _ _ rfl rfl
    | exact escape_quiet_next _ _ rfl rfl
    | exact escape_packed _ _ _ (code3_range _).1 (code3_range _).2 rfl rfl
    | exact escape_packed _ _ _ (code4_range _ _).1 (code4_range _ _).2 rfl rfl
    | exact escape_quiet_next _ _ (skipRest_frame _ _).2.1 (skipRest_frame _ _).1

/-- C6: packed escape-sequence codes never collide with literal byte codes.
For every third value b3 and every terminator t in 0x40..0x7e, the 3-byte code
is 0x1b5b00 + t and the 4-byte code is 0x1b5b0000 + 256 * (b3 & 0xff) + t; both
are greater than 0xff and below 2^31, so they differ from every byte value, in
particular from the codes of q and of the space, and `key_command` returns 0
on them. In the decoder itself: whatever follows an ESC read at a key
boundary, every key code that the iteration passes to `key_command` is
greater than 0xff, below 2^31 and neither q nor the space, `quit` stays 0, and
neither "quit" nor "pause" is written to the pipe. -/
theorem packed_codes_disjoint_from_bytes (b3 t : Int) (ht : isFinal t = true) :
    code3 t = 0x1b5b00 + t ∧
    code4 b3 t = 0x1b5b0000 + 256 * (low8 b3 : Int) + t ∧
    0xFF < code3 t ∧ code3 t < 2 ^ 31 ∧
    0xFF < code4 b3 t ∧ code4 b3 t < 2 ^ 31 ∧
    (∀ b : Byte, code3 t ≠ (b.val : Int) ∧ code4 b3 t ≠ (b.val : Int)) ∧
    code3 t ≠ chr 'q' ∧ code3 t ≠ chr ' ' ∧
    code4 b3 t ≠ chr 'q' ∧ code4 b3 t ≠ chr ' ' ∧
    (∀ w, (key_command (code3 t) w).1 = 0 ∧ (key_command (code4 b3 t) w).1 = 0) ∧
    (∀ (w : World) (rest : List Byte),
      EscapeDispatch w (loopBody ready { w with stdin := 0x1b :: rest })) := by
  have h3 := code3_eq t
  have h4 := code4_eq b3 t
  have l3 := low8_lt b3
  have lt := low8_lt t
  have et := low8_of_final t ht
  have hq : chr 'q' = 113 := rfl
  have hs : chr ' ' = 32 := rfl
  have n3 : code3 t ≠ chr 'q' := by rw [hq]; omega
  have n4 : code4 b3 t ≠ chr 'q' := by rw [hq]; omega
  refine ⟨by omega, by omega, by omega, by omega, by omega, by omega, ?_, n3,
    by rw [hs]; omega, n4, by rw [hs]; omega, ?_, escape_iteration⟩
  · intro b
    have := b.isLt
    constructor <;> omega
  · intro w
    rw [key_command_ret, key_command_ret, if_neg n3, if_neg n4]
    exact ⟨rfl, rfl⟩

theorem packed_codes_disjoint_from_bytes_witness :
    code3 0x41 = 0x1b5b00 + 0x41 ∧
    code4 0x35 0x7e = 0x1b5b0000 + 256 * (low8 0x35 : Int) + 0x7e ∧
    0xFF < code3 0x7e ∧ code3 0x7e < 2 ^ 31 ∧
    EscapeDispatch ⟨[], false, [], [], [], [], 10, []⟩
      (loopBody ready
        { (⟨[], false, [], [], [], [], 10, []⟩ : World) with stdin := 0x1b :: [0x5b, 0x48] }) :=
  ⟨(packed_codes_disjoint_from_bytes 0x35 0x41 (by decide)).1,
   (packed_codes_disjoint_from_bytes 0x35 0x7e (by decide)).2.1,
   (packed_codes_disjoint_from_bytes 0x35 0x7e (by decide)).2.2.1,
   (packed_codes_disjoint_from_bytes 0x35 0x7e (by decide)).2.2.2.1,
   (packed_codes_disjoint_from_bytes 0x35 0x7e (by decide)).2.2.2.2.2.2.2.2.2.2.2.2
     ⟨[], false, [], [], [], [], 10, []⟩ [0x5b, 0x48]⟩

end MplayerTranscribe
